import Mathlib

/-!
Verification of the invoice-financing marketplace core: the bid/bill
lifecycle state machine from packages/backend/controllers/billController.js,
packages/backend/controllers/bidController.js,
packages/backend/controllers/userController.js and the mongoose schemas
(billModel, bidModel, userModel).

Modelling conventions:
- Machine state is the document store: a list of bills, a list of bids and a
  total map from user ids to user records (mongoose findById on a referenced
  user; referential integrity of user references is provided by the external
  persistence collaborator).
- Monetary values and percentages are rationals (JS numbers; all arithmetic
  in the core is +, -, * and division by 100, exact on rationals).
- Timestamps are naturals (milliseconds); each request carries the clock
  value used for every occurrence of Date.now / new Date inside it.
- Each controller operation returns the optional error produced (AppError
  message and HTTP status code, exactly as in the source) together with the
  resulting store; every intermediate save is applied to the threaded store,
  so an error outcome carries whatever writes happened before it.
- Document saves run the schema pre-save hooks and then validate the paths
  the operation assigned (mongoose marks assigned paths modified); query
  updates (findByIdAndUpdate) run update validators on the provided paths
  only and do NOT run the save hooks, and updateMany/findByIdAndDelete
  run no document middleware, exactly as mongoose does.
-/

/- Rational arithmetic in core Lean is compiled to efficient C and its Lean
definitions are irreducible by default, so evaluation by the decide tactic
gets stuck on it; the kernel itself ignores reducibility, so marking the
arithmetic semireducible only lets the elaborator run the same reduction the
kernel performs anyway. -/
set_option allowUnsafeReducibility true

attribute [semireducible] Rat.sub Rat.add Rat.mul Rat.div Rat.inv Rat.neg

namespace InvoiceFinancing

abbrev UserId := Nat
abbrev BillId := Nat
abbrev BidId := Nat
abbrev Time := Nat
abbrev Money := Rat

inductive Role
  | customer
  | organization
  | financer
deriving DecidableEq, Repr

inductive BillStatus
  | draft
  | sent
  | paid
  | overdue
  | financed
deriving DecidableEq, Repr

inductive BidStatus
  | pending
  | accepted
  | rejected
  | expired
deriving DecidableEq, Repr

/-- Per-user running counters (userModel stats subdocument). -/
structure Stats where
  totalBillsCreated : Money := 0
  totalBillsSent : Money := 0
  totalRevenue : Money := 0
  totalBillsReceived : Money := 0
  totalBillsPaid : Money := 0
  totalAmountPaid : Money := 0
  totalBidsPlaced : Money := 0
  totalBidsWon : Money := 0
  totalInvestmentAmount : Money := 0
  totalReturns : Money := 0
deriving DecidableEq, Repr

/-- Financer-specific fields of a user (userModel financerDetails). -/
structure FinancerDetails where
  availableFunds : Money := 0
deriving DecidableEq, Repr

/-- A user document (userModel), restricted to the fields the core reads. -/
structure User where
  id : UserId
  role : Role
  financerDetails : FinancerDetails := {}
  stats : Stats := {}
deriving DecidableEq, Repr

/-- A bill document (billModel). -/
structure Bill where
  id : BillId
  billNumber : String
  title : String := ""
  description : String := ""
  amount : Money
  dueDate : Time
  status : BillStatus := BillStatus.draft
  isActive : Bool := true
  organization : UserId
  customer : UserId
  currentOwner : UserId
  isInMarketplace : Bool := false
  financingPercentage : Option Money := none
  financedAmount : Money := 0
  financer : Option UserId := none
  sentAt : Option Time := none
  paidAt : Option Time := none
  financedAt : Option Time := none
deriving DecidableEq, Repr

/-- A bid document (bidModel). -/
structure Bid where
  id : BidId
  bill : BillId
  financer : UserId
  financingPercentage : Money
  bidAmount : Money
  status : BidStatus := BidStatus.pending
  expiresAt : Time
  acceptedAt : Option Time := none
  interest : Money := 0
  terms : String := ""
deriving DecidableEq, Repr

/-- The document store: bills, bids and users. -/
structure State where
  bills : List Bill
  bids : List Bid
  users : UserId → User

/-- An operation error: AppError message and HTTP status code. -/
structure AppError where
  message : String
  statusCode : Nat
deriving DecidableEq, Repr

/-- Bill.findById. -/
def findBill (s : State) (billId : BillId) : Option Bill :=
  s.bills.find? (fun b => decide (b.id = billId))

/-- Bid.findById. -/
def findBid (s : State) (bidId : BidId) : Option Bid :=
  s.bids.find? (fun b => decide (b.id = bidId))

/-- Persist an existing bill document (overwrite by id). -/
def saveBillDoc (s : State) (b : Bill) : State :=
  { s with bills := s.bills.map (fun x => if x.id = b.id then b else x) }

/-- Persist an existing bid document (overwrite by id). -/
def saveBidDoc (s : State) (b : Bid) : State :=
  { s with bids := s.bids.map (fun x => if x.id = b.id then b else x) }

/-- Persist a user document (overwrite by id). -/
def saveUser (s : State) (u : User) : State :=
  { s with users := fun i => if i = u.id then u else s.users i }

/-- billSchema pre-save status hooks.  The first hook lazily flips a sent
bill that is past due to overdue; the second stamps sentAt / paidAt /
financedAt and toggles the marketplace and active flags when the status
path was assigned by the operation (mongoose isModified). -/
def billStatusHooks (now : Time) (statusAssigned : Bool) (b : Bill) : Bill :=
  let b := if b.status = BillStatus.sent ∧ b.dueDate < now then
    { b with status := BillStatus.overdue } else b
  if statusAssigned then
    let b := if b.status = BillStatus.sent ∧ b.sentAt = none then
      { b with sentAt := some now, isInMarketplace := true } else b
    let b := if b.status = BillStatus.paid ∧ b.paidAt = none then
      { b with paidAt := some now, isActive := false, isInMarketplace := false } else b
    if b.status = BillStatus.financed ∧ b.financedAt = none then
      { b with financedAt := some now } else b
  else b

/-- bidSchema pre-save hook computing bidAmount from the parent bill, run
when the document is new or financingPercentage was assigned; when the
parent bill is not found the amount is left as is, exactly as the hook
does. -/
def bidAmountHook (s : State) (recompute : Bool) (b : Bid) : Bid :=
  if recompute then
    match findBill s b.bill with
    | some bill => { b with bidAmount := bill.amount * b.financingPercentage / 100 }
    | none => b
  else b

/-- bidSchema pre-save hook stamping acceptedAt when the status path was
assigned to accepted and acceptedAt is unset. -/
def bidStatusHook (now : Time) (statusAssigned : Bool) (b : Bid) : Bid :=
  if statusAssigned ∧ b.status = BidStatus.accepted ∧ b.acceptedAt = none then
    { b with acceptedAt := some now } else b

/-- bidSchema field validators (financingPercentage 1..95, bidAmount and
interest nonnegative, terms at most 500 characters). -/
def bidValid (b : Bid) : Bool :=
  decide (1 ≤ b.financingPercentage ∧ b.financingPercentage ≤ 95 ∧
    0 ≤ b.bidAmount ∧ 0 ≤ b.interest ∧ b.terms.length ≤ 500)

inductive StatType
  | billCreated
  | billSent
  | revenueEarned
  | billReceived
  | billPaid
  | amountPaid
  | bidPlaced
  | bidWon
  | invested
  | returnsEarned
deriving DecidableEq, Repr

/-- userSchema.methods.updateStats: add a value to the named counter. -/
def Stats.update (st : Stats) (t : StatType) (v : Money) : Stats :=
  match t with
  | StatType.billCreated => { st with totalBillsCreated := st.totalBillsCreated + v }
  | StatType.billSent => { st with totalBillsSent := st.totalBillsSent + v }
  | StatType.revenueEarned => { st with totalRevenue := st.totalRevenue + v }
  | StatType.billReceived => { st with totalBillsReceived := st.totalBillsReceived + v }
  | StatType.billPaid => { st with totalBillsPaid := st.totalBillsPaid + v }
  | StatType.amountPaid => { st with totalAmountPaid := st.totalAmountPaid + v }
  | StatType.bidPlaced => { st with totalBidsPlaced := st.totalBidsPlaced + v }
  | StatType.bidWon => { st with totalBidsWon := st.totalBidsWon + v }
  | StatType.invested => { st with totalInvestmentAmount := st.totalInvestmentAmount + v }
  | StatType.returnsEarned => { st with totalReturns := st.totalReturns + v }

/-- user.updateStats followed by save (validateBeforeSave false). -/
def updateStats (s : State) (uid : UserId) (t : StatType) (v : Money) : State :=
  let u := s.users uid
  saveUser s { u with stats := u.stats.update t v }

/-- Fresh id for a created bid document. -/
def freshBidId (s : State) : BidId :=
  (s.bids.foldl (fun m b => max m b.id) 0) + 1

/-- Fresh id for a created bill document. -/
def freshBillId (s : State) : BillId :=
  (s.bills.foldl (fun m b => max m b.id) 0) + 1

/-- Request body of POST bids (placeBid). -/
structure PlaceBidReq where
  billId : BillId
  financingPercentage : Money
  terms : String
  interest : Option Money
deriving DecidableEq, Repr

/-- bidController.placeBid. -/
def placeBid (now : Time) (actorId : UserId) (req : PlaceBidReq) (s : State) :
    Option AppError × State :=
  let actor := s.users actorId
  if actor.role ≠ Role.financer then
    (some ⟨"Only financers can place bids", 403⟩, s)
  else match findBill s req.billId with
  | none => (some ⟨"No bill found with that ID", 404⟩, s)
  | some bill =>
    if ¬ bill.isInMarketplace ∨ bill.status ≠ BillStatus.sent then
      (some ⟨"Bill is not available for financing", 400⟩, s)
    else if bill.financer ≠ none then
      (some ⟨"Bill has already been financed", 400⟩, s)
    else if bill.dueDate ≤ now then
      (some ⟨"Cannot bid on overdue bills", 400⟩, s)
    else if actor.financerDetails.availableFunds < bill.amount * req.financingPercentage / 100 then
      (some ⟨"Insufficient funds to place this bid", 400⟩, s)
    else if (s.bids.find? (fun x => decide (x.bill = req.billId ∧ x.financer = actorId))).isSome then
      (some ⟨"You have already placed a bid on this bill", 400⟩, s)
    else
      let newBid : Bid :=
        { id := freshBidId s
          bill := req.billId
          financer := actorId
          financingPercentage := req.financingPercentage
          bidAmount := 0
          status := BidStatus.pending
          expiresAt := now + 86400000
          acceptedAt := none
          interest := req.interest.getD 0
          terms := req.terms }
      let newBid := bidAmountHook s true newBid
      let newBid := bidStatusHook now false newBid
      if ¬ bidValid newBid then
        (some ⟨"Bid validation failed", 400⟩, s)
      else
        let s1 : State := { s with bids := s.bids ++ [newBid] }
        (none, updateStats s1 actorId StatType.bidPlaced 1)

/-- Request body of PATCH bids (updateBid); absent fields are omitted from
the update.  Only the allow-listed fields reach the update. -/
structure UpdateBidReq where
  financingPercentage : Option Money
  terms : Option String
  interest : Option Money
deriving DecidableEq, Repr

/-- Update validators run by findByIdAndUpdate (runValidators) on the
provided paths only. -/
def updateBidValidators (req : UpdateBidReq) : Bool :=
  (match req.financingPercentage with
   | some p => decide (1 ≤ p ∧ p ≤ 95)
   | none => true) &&
  (match req.interest with
   | some i => decide (0 ≤ i)
   | none => true) &&
  (match req.terms with
   | some t => decide (t.length ≤ 500)
   | none => true)

/-- bidController.updateBid.  findByIdAndUpdate applies the provided fields
directly: the bid pre-save hooks do not run, so bidAmount is not
recomputed. -/
def updateBid (now : Time) (actorId : UserId) (bidId : BidId) (req : UpdateBidReq)
    (s : State) : Option AppError × State :=
  match findBid s bidId with
  | none => (some ⟨"No bid found with that ID", 404⟩, s)
  | some bid =>
    if bid.financer ≠ actorId then
      (some ⟨"You can only update your own bids", 403⟩, s)
    else if bid.status ≠ BidStatus.pending then
      (some ⟨"Only pending bids can be updated", 400⟩, s)
    else if bid.expiresAt ≤ now then
      (some ⟨"Bid has expired", 400⟩, s)
    else match findBill s bid.bill with
    | none => (some ⟨"Cannot read properties of null", 500⟩, s)
    | some bill =>
      if bill.financer ≠ none then
        (some ⟨"Bill has already been financed", 400⟩, s)
      else
        let fundsShort : Bool := match req.financingPercentage with
          | some p => decide (p ≠ 0) &&
              decide ((s.users actorId).financerDetails.availableFunds < bill.amount * p / 100)
          | none => false
        if fundsShort then
          (some ⟨"Insufficient funds for updated bid amount", 400⟩, s)
        else if ¬ updateBidValidators req then
          (some ⟨"Bid validation failed", 400⟩, s)
        else
          let updated : Bid :=
            { bid with
              financingPercentage := req.financingPercentage.getD bid.financingPercentage
              terms := req.terms.getD bid.terms
              interest := req.interest.getD bid.interest }
          (none, saveBidDoc s updated)

/-- bidController.acceptBid. -/
def acceptBid (now : Time) (actorId : UserId) (bidId : BidId) (s : State) :
    Option AppError × State :=
  match findBid s bidId with
  | none => (some ⟨"No bid found with that ID", 404⟩, s)
  | some bid =>
    match findBill s bid.bill with
    | none => (some ⟨"Cannot read properties of null", 500⟩, s)
    | some bill =>
      if bill.organization ≠ actorId then
        (some ⟨"You can only accept bids on your own bills", 403⟩, s)
      else if bid.status ≠ BidStatus.pending then
        (some ⟨"Bid is no longer available", 400⟩, s)
      else if bid.expiresAt ≤ now then
        (some ⟨"Bid has expired", 400⟩, s)
      else if bill.financer ≠ none then
        (some ⟨"Bill has already been financed", 400⟩, s)
      else
        let bid1 := bidStatusHook now true { bid with status := BidStatus.accepted }
        let s1 := saveBidDoc s bid1
        let bill1 : Bill :=
          { bill with
            financer := some bid.financer
            currentOwner := bid.financer
            status := BillStatus.financed
            financingPercentage := some bid.financingPercentage
            financedAmount := bid.bidAmount
            isInMarketplace := false }
        let bill2 := billStatusHooks now true bill1
        if ¬ (0 ≤ bid.financingPercentage ∧ bid.financingPercentage ≤ 100) then
          (some ⟨"Bill validation failed", 400⟩, s1)
        else
          let s2 := saveBillDoc s1 bill2
          let s3 : State := { s2 with bids := s2.bids.map (fun x =>
            if x.bill = bill.id ∧ x.status = BidStatus.pending ∧ x.id ≠ bid.id then
              { x with status := BidStatus.rejected } else x) }
          let s4 := updateStats s3 bid.financer StatType.bidWon 1
          let s5 := updateStats s4 bid.financer StatType.invested bid.bidAmount
          let fin := s5.users bid.financer
          let s6 := saveUser s5
            { fin with financerDetails :=
              { fin.financerDetails with
                availableFunds := fin.financerDetails.availableFunds - bid.bidAmount } }
          (none, s6)

/-- bidController.cancelBid: hard delete of an owned pending bid. -/
def cancelBid (actorId : UserId) (bidId : BidId) (s : State) :
    Option AppError × State :=
  match findBid s bidId with
  | none => (some ⟨"No bid found with that ID", 404⟩, s)
  | some bid =>
    if bid.financer ≠ actorId then
      (some ⟨"You can only cancel your own bids", 403⟩, s)
    else if bid.status ≠ BidStatus.pending then
      (some ⟨"Only pending bids can be cancelled", 400⟩, s)
    else
      (none, { s with bids := s.bids.filter (fun x => decide (x.id ≠ bidId)) })

/-- billController.sendBill. -/
def sendBill (now : Time) (actorId : UserId) (billId : BillId) (s : State) :
    Option AppError × State :=
  match findBill s billId with
  | none => (some ⟨"No bill found with that ID", 404⟩, s)
  | some bill =>
    if bill.organization ≠ actorId then
      (some ⟨"You can only send your own bills", 403⟩, s)
    else if bill.status ≠ BillStatus.draft then
      (some ⟨"Bill has already been sent", 400⟩, s)
    else
      let bill1 := billStatusHooks now true { bill with status := BillStatus.sent }
      let s1 := saveBillDoc s bill1
      let s2 := updateStats s1 actorId StatType.billSent 1
      (none, updateStats s2 bill.customer StatType.billReceived 1)

/-- billController.payBill. -/
def payBill (now : Time) (actorId : UserId) (billId : BillId) (s : State) :
    Option AppError × State :=
  match findBill s billId with
  | none => (some ⟨"No bill found with that ID", 404⟩, s)
  | some bill =>
    if bill.customer ≠ actorId then
      (some ⟨"You can only pay your own bills", 403⟩, s)
    else if bill.status = BillStatus.paid then
      (some ⟨"Bill has already been paid", 400⟩, s)
    else if bill.status ≠ BillStatus.sent ∧ bill.status ≠ BillStatus.overdue ∧
        bill.status ≠ BillStatus.financed then
      (some ⟨"Bill cannot be paid in current status", 400⟩, s)
    else
      let bill1 := billStatusHooks now true { bill with status := BillStatus.paid }
      let s1 := saveBillDoc s bill1
      let s2 := updateStats s1 actorId StatType.billPaid 1
      let s3 := updateStats s2 actorId StatType.amountPaid bill.amount
      let owner := s3.users bill.currentOwner
      let s4 :=
        if owner.role = Role.organization then
          updateStats s3 bill.currentOwner StatType.revenueEarned bill.amount
        else if owner.role = Role.financer then
          updateStats s3 bill.currentOwner StatType.returnsEarned (bill.amount - bill.financedAmount)
        else s3
      (none, s4)

/-- Request body of POST bills (createBill); the generated bill number is
passed in (generateBillNumber draws on the clock and a random string). -/
structure CreateBillReq where
  title : String
  description : String
  amount : Money
  dueDate : Time
  customer : UserId
deriving DecidableEq, Repr

/-- billController.createBill. -/
def createBill (now : Time) (actorId : UserId) (billNumber : String)
    (req : CreateBillReq) (s : State) : Option AppError × State :=
  let actor := s.users actorId
  if actor.role ≠ Role.organization then
    (some ⟨"Only organizations can create bills", 403⟩, s)
  else if (s.users req.customer).role ≠ Role.customer then
    (some ⟨"Invalid customer ID", 400⟩, s)
  else
    let bill : Bill :=
      { id := freshBillId s
        billNumber := billNumber
        title := req.title
        description := req.description
        amount := req.amount
        dueDate := req.dueDate
        status := BillStatus.draft
        isActive := true
        organization := actorId
        customer := req.customer
        currentOwner := actorId
        isInMarketplace := false
        financingPercentage := none
        financedAmount := 0
        financer := none
        sentAt := none
        paidAt := none
        financedAt := none }
    let bill := { bill with currentOwner := bill.organization }
    let bill := billStatusHooks now true bill
    if ¬ (0 ≤ req.amount ∧ now < req.dueDate) then
      (some ⟨"Bill validation failed", 400⟩, s)
    else
      let s1 : State := { s with bills := s.bills ++ [bill] }
      (none, updateStats s1 actorId StatType.billCreated 1)

/-- userController.addFunds. -/
def addFunds (actorId : UserId) (amount : Money) (s : State) :
    Option AppError × State :=
  if (s.users actorId).role ≠ Role.financer then
    (some ⟨"Only financers can add funds", 403⟩, s)
  else if amount ≤ 0 then
    (some ⟨"Amount must be positive", 400⟩, s)
  else
    let u := s.users actorId
    (none, saveUser s
      { u with financerDetails :=
        { u.financerDetails with availableFunds := u.financerDetails.availableFunds + amount } })

/-- billController.getBillsByStatus: filter on the stored status and the
role-specific ownership field. -/
def getBillsByStatus (actorId : UserId) (q : BillStatus) (s : State) : List Bill :=
  let roleFilter : Bill → Bool := fun b =>
    match (s.users actorId).role with
    | Role.organization => decide (b.organization = actorId)
    | Role.customer => decide (b.customer = actorId)
    | Role.financer => decide (b.financer = some actorId)
  s.bills.filter (fun b => decide (b.status = q) && roleFilter b)

/-- The marketplace eligibility filter of billController.getMarketplaceBills. -/
def marketplaceEligible (now : Time) (b : Bill) : Bool :=
  decide (b.isInMarketplace = true ∧ b.status = BillStatus.sent ∧
    now < b.dueDate ∧ b.financer = none)

/-- billController.getMarketplaceBills. -/
def getMarketplaceBills (now : Time) (actorId : UserId) (s : State) :
    Option AppError × List Bill :=
  if (s.users actorId).role ≠ Role.financer then
    (some ⟨"Only financers can access the marketplace", 403⟩, [])
  else
    (none, s.bills.filter (marketplaceEligible now))

/-- The per-element transformation applied to the bid collection by a
successful acceptBid: the accepted bid document is overwritten by its
saved accepted form, and every other still-pending bid of the same bill
is bulk-updated to rejected. -/
def acceptTransform (now : Time) (B : Bid) (X : Bill) (x : Bid) : Bid :=
  let b1 := bidStatusHook now true { B with status := BidStatus.accepted }
  let y := if x.id = b1.id then b1 else x
  if y.bill = X.id ∧ y.status = BidStatus.pending ∧ y.id ≠ B.id then
    { y with status := BidStatus.rejected } else y

/-- The financed form of bill X after bid B on it is accepted. -/
def financeBill (now : Time) (B : Bid) (X : Bill) : Bill :=
  billStatusHooks now true
    { X with
      financer := some B.financer
      currentOwner := B.financer
      status := BillStatus.financed
      financingPercentage := some B.financingPercentage
      financedAmount := B.bidAmount
      isInMarketplace := false }

/-- Every bill of s that has a financer keeps that financer (under the same
document id) in t. -/
def preservesFinancers (s t : State) : Prop :=
  ∀ b ∈ s.bills, ∀ f : UserId, b.financer = some f →
    ∃ b' ∈ t.bills, b'.id = b.id ∧ b'.financer = some f

/-! ### Concrete fixture states used by the counterexamples and witnesses -/

def mkUser (i : UserId) (r : Role) (funds : Money) : User :=
  { id := i, role := r, financerDetails := { availableFunds := funds }, stats := {} }

def usersA : UserId → User := fun i =>
  if i = 1 then mkUser 1 Role.organization 0
  else if i = 2 then mkUser 2 Role.financer 1000
  else if i = 3 then mkUser 3 Role.financer 1000
  else mkUser i Role.customer 0

/-- A sent, in-marketplace, unfinanced bill owned by organization 1. -/
def billA : Bill :=
  { id := 1, billNumber := "B1", amount := 100, dueDate := 1000,
    status := BillStatus.sent, organization := 1, customer := 4, currentOwner := 1,
    isInMarketplace := true, sentAt := some 1 }

def bid1A : Bid :=
  { id := 1, bill := 1, financer := 2, financingPercentage := 10, bidAmount := 10,
    expiresAt := 2000 }

def bid2A : Bid :=
  { id := 2, bill := 1, financer := 3, financingPercentage := 20, bidAmount := 20,
    expiresAt := 2000 }

/-- Bill A with two pending unexpired bids from financers 2 and 3. -/
def sA : State := { bills := [billA], bids := [bid1A, bid2A], users := usersA }

/-- The store after organization 1 accepts bid 1 at time 10. -/
def sF : State := (acceptBid 10 1 1 sA).2

def usersB : UserId → User := fun i =>
  if i = 1 then mkUser 1 Role.organization 0
  else if i = 2 then mkUser 2 Role.financer 5000
  else mkUser i Role.customer 0

def billB : Bill :=
  { id := 1, billNumber := "B1", amount := 10000, dueDate := 1000000,
    status := BillStatus.sent, organization := 1, customer := 4, currentOwner := 1,
    isInMarketplace := true, sentAt := some 1 }

def sB0 : State := { bills := [billB], bids := [], users := usersB }

/-- sB0 after financer 2 places a 40 percent bid on bill 1 at time 10. -/
def sB1 : State :=
  (placeBid 10 2 { billId := 1, financingPercentage := 40, terms := "", interest := none } sB0).2

/-- sB1 after financer 2 raises the bid to 50 percent at time 20. -/
def sB2 : State :=
  (updateBid 20 2 1 { financingPercentage := some 50, terms := none, interest := none } sB1).2

/-- sB2 after organization 1 accepts the bid at time 30. -/
def sB3 : State := (acceptBid 30 1 1 sB2).2

/-- A draft bill whose dueDate (5) is already past at send time (10). -/
def billC : Bill :=
  { id := 1, billNumber := "B1", amount := 100, dueDate := 5,
    status := BillStatus.draft, organization := 1, customer := 4, currentOwner := 1 }

def sC : State := { bills := [billC], bids := [], users := usersB }

/-- A pending bid that expired at time 5. -/
def bidD : Bid :=
  { id := 1, bill := 1, financer := 2, financingPercentage := 10, bidAmount := 10,
    expiresAt := 5 }

def sD : State := { bills := [billA], bids := [bidD], users := usersA }

/-- A bid stored with status expired on the still-open bill A. -/
def bidG : Bid :=
  { id := 1, bill := 1, financer := 2, financingPercentage := 10, bidAmount := 10,
    status := BidStatus.expired, expiresAt := 5 }

def sG : State := { bills := [billA], bids := [bidG], users := usersA }

/-- A bill stored as sent whose dueDate (5) is already past at read time (10). -/
def billH : Bill :=
  { id := 1, billNumber := "B1", amount := 100, dueDate := 5,
    status := BillStatus.sent, organization := 1, customer := 4, currentOwner := 1,
    isInMarketplace := true, sentAt := some 1 }

def sH : State := { bills := [billH], bids := [], users := usersA }

def usersE : UserId → User := fun i =>
  if i = 1 then mkUser 1 Role.organization 0
  else if i = 3 then mkUser 3 Role.financer 0
  else mkUser i Role.customer 0

def sE0 : State := { bills := [], bids := [], users := usersE }

def sE1 : State :=
  (createBill 0 1 "B1" { title := "t", description := "d", amount := 10000, dueDate := 1000000, customer := 2 } sE0).2

def sE2 : State :=
  (createBill 0 1 "B2" { title := "t", description := "d", amount := 10000, dueDate := 1000000, customer := 2 } sE1).2

def sE3 : State := (sendBill 1 1 1 sE2).2

def sE4 : State := (sendBill 1 1 2 sE3).2

def sE5 : State := (addFunds 3 5000 sE4).2

def sE6 : State :=
  (placeBid 2 3 { billId := 1, financingPercentage := 40, terms := "", interest := none } sE5).2

def sE7 : State :=
  (placeBid 2 3 { billId := 2, financingPercentage := 40, terms := "", interest := none } sE6).2

def sE8 : State := (acceptBid 3 1 1 sE7).2

def sE9 : State := (acceptBid 3 1 2 sE8).2

/-! ### Helper lemmas -/

theorem bidStatusHook_id (now : Time) (f : Bool) (b : Bid) :
    (bidStatusHook now f b).id = b.id := by
  unfold bidStatusHook; split <;> rfl

theorem bidStatusHook_status (now : Time) (f : Bool) (b : Bid) :
    (bidStatusHook now f b).status = b.status := by
  unfold bidStatusHook; split <;> rfl

theorem billStatusHooks_organization (now : Time) (f : Bool) (b : Bill) :
    (billStatusHooks now f b).organization = b.organization := by
  unfold billStatusHooks
  dsimp only
  repeat' split
  all_goals rfl

theorem billStatusHooks_id (now : Time) (f : Bool) (b : Bill) :
    (billStatusHooks now f b).id = b.id := by
  unfold billStatusHooks
  dsimp only
  repeat' split
  all_goals rfl

theorem billStatusHooks_financer (now : Time) (f : Bool) (b : Bill) :
    (billStatusHooks now f b).financer = b.financer := by
  unfold billStatusHooks
  dsimp only
  repeat' split
  all_goals rfl

theorem find?_map_key {α : Type} (key : α → Nat) (g : α → α)
    (hg : ∀ x, key (g x) = key x) (i : Nat) :
    ∀ l : List α, (l.map g).find? (fun b => decide (key b = i)) =
      (l.find? (fun b => decide (key b = i))).map g := by
  intro l
  induction l with
  | nil => rfl
  | cons a t ih =>
    by_cases h : key a = i
    · simp [List.find?_cons_of_pos, h, hg]
    · rw [List.map_cons, List.find?_cons_of_neg _ (by simp [hg, h]),
        List.find?_cons_of_neg _ (by simp [h]), ih]

theorem eq_of_key_nodup {α : Type} (key : α → Nat) :
    ∀ l : List α, (l.map key).Nodup → ∀ b ∈ l, ∀ c ∈ l, key b = key c → b = c := by
  intro l
  induction l with
  | nil => intro _ b hb; exact absurd hb (List.not_mem_nil b)
  | cons a t ih =>
    intro hn b hb c hc hk
    rw [List.map_cons, List.nodup_cons] at hn
    rcases List.mem_cons.mp hb with rfl | hb'
    · rcases List.mem_cons.mp hc with rfl | hc'
      · rfl
      · exfalso; apply hn.1; rw [hk]; exact List.mem_map_of_mem key hc'
    · rcases List.mem_cons.mp hc with rfl | hc'
      · exfalso; apply hn.1; rw [← hk]; exact List.mem_map_of_mem key hb'
      · exact ih hn.2 b hb' c hc' hk

theorem placeBid_error_no_change (now : Time) (a : UserId) (req : PlaceBidReq) (s : State) :
    ((placeBid now a req s).1).isSome → (placeBid now a req s).2 = s := by
  unfold placeBid
  dsimp only
  repeat' split
  all_goals intro h
  all_goals first | rfl | simp at h

theorem cancelBid_error_no_change (a : UserId) (bidId : BidId) (s : State) :
    ((cancelBid a bidId s).1).isSome → (cancelBid a bidId s).2 = s := by
  unfold cancelBid
  repeat' split
  all_goals intro h
  all_goals first | rfl | simp at h

theorem updateBid_error_no_change (now : Time) (a : UserId) (bidId : BidId)
    (req : UpdateBidReq) (s : State) :
    ((updateBid now a bidId req s).1).isSome → (updateBid now a bidId req s).2 = s := by
  unfold updateBid
  dsimp only
  repeat' split
  all_goals intro h
  all_goals first | rfl | simp at h

theorem sendBill_error_no_change (now : Time) (a : UserId) (billId : BillId) (s : State) :
    ((sendBill now a billId s).1).isSome → (sendBill now a billId s).2 = s := by
  unfold sendBill
  dsimp only
  repeat' split
  all_goals intro h
  all_goals first | rfl | simp at h

theorem payBill_error_no_change (now : Time) (a : UserId) (billId : BillId) (s : State) :
    ((payBill now a billId s).1).isSome → (payBill now a billId s).2 = s := by
  unfold payBill
  dsimp only
  repeat' split
  all_goals intro h
  all_goals first | rfl | simp at h

theorem acceptBid_error_no_change (now : Time) (a : UserId) (bidId : BidId) (s : State)
    (hpct : ∀ b ∈ s.bids, 1 ≤ b.financingPercentage ∧ b.financingPercentage ≤ 95) :
    ((acceptBid now a bidId s).1).isSome → (acceptBid now a bidId s).2 = s := by
  unfold acceptBid
  cases hfb : findBid s bidId with
  | none => intro _; rfl
  | some bid =>
    have hb := hpct bid (List.mem_of_find?_eq_some hfb)
    dsimp only
    repeat' split
    all_goals intro h
    all_goals first
      | rfl
      | exact absurd (⟨le_trans zero_le_one hb.1, le_trans hb.2 (by norm_num)⟩ :
          0 ≤ bid.financingPercentage ∧ bid.financingPercentage ≤ 100) (by assumption)
      | simp at h

/-! ### Claim theorems -/

/-- Claim C1 counterexample: in state sA organization 1 owns sent bill 1
with two pending unexpired bids; the first Accept of bid 1 at time 10
succeeds and sets the bill financer to financer 2, and a second Accept on
bid 2 (which was pending at first acceptance) fails with the InvalidState
error "Bid is no longer available" -- the first acceptance bulk-rejected
bid 2 -- not with the AlreadyFinanced error "Bill has already been
financed" the claim requires. -/
theorem secondAccept_fails_invalidState_not_alreadyFinanced :
    (acceptBid 10 1 1 sA).1 = none ∧
    (findBill sF 1).map Bill.financer = some (some 2) ∧
    (acceptBid 20 1 2 sF).1 = some ⟨"Bid is no longer available", 400⟩ ∧
    (⟨"Bid is no longer available", 400⟩ : AppError) ≠
      ⟨"Bill has already been financed", 400⟩ := by
  decide

/-- Claim C3 (code bug): financer 2 places a 40 percent bid on bill 1 of
amount 10000, so bidAmount is stored as 4000; the later update to 50
percent succeeds and persists financingPercentage 50, yet bidAmount stays
4000 instead of 5000: findByIdAndUpdate bypasses the bid pre-save hook that
recomputes bidAmount, and the controller discards the amount it recomputes
for the funds check, so the documented relation bidAmount equals
bill.amount times financingPercentage over 100 is broken. -/
theorem updateBid_leaves_bidAmount_stale :
    (placeBid 10 2 { billId := 1, financingPercentage := 40, terms := "", interest := none } sB0).1 = none ∧
    (findBid sB1 1).map Bid.bidAmount = some 4000 ∧
    (updateBid 20 2 1 { financingPercentage := some 50, terms := none, interest := none } sB1).1 = none ∧
    (findBid sB2 1).map Bid.financingPercentage = some 50 ∧
    (findBid sB2 1).map Bid.bidAmount = some 4000 ∧
    some (4000 : Money) ≠ some ((10000 : Money) * 50 / 100) := by
  decide

/-- Claim C4 (code bug): continuing the C3 scenario, accepting the stale
bid at time 30 produces a reachable financed bill with financingPercentage
50 but financedAmount 4000, violating financedAmount equals amount times
financingPercentage over 100 (which would demand 5000). -/
theorem financed_bill_financedAmount_invariant_broken :
    (acceptBid 30 1 1 sB2).1 = none ∧
    (findBill sB3 1).map Bill.status = some BillStatus.financed ∧
    (findBill sB3 1).map Bill.financingPercentage = some (some 50) ∧
    (findBill sB3 1).map Bill.financedAmount = some 4000 ∧
    some (4000 : Money) ≠ some ((10000 : Money) * 50 / 100) := by
  decide

/-- Claim C6 counterexample: bill 1 in sC is a draft owned by organization
1 whose dueDate 5 is already past at send time 10; sendBill succeeds, but
the bill pre-save hook flips the just-assigned sent status to overdue
before the sent branch runs, so the bill ends overdue with no sentAt stamp
and isInMarketplace still false -- not status sent, sentAt now and
isInMarketplace true as the claim states. -/
theorem sendBill_pastDue_draft_ends_overdue_unsent :
    billC.status = BillStatus.draft ∧ billC.dueDate < 10 ∧
    (sendBill 10 1 1 sC).1 = none ∧
    (findBill (sendBill 10 1 1 sC).2 1).map Bill.status = some BillStatus.overdue ∧
    (findBill (sendBill 10 1 1 sC).2 1).map Bill.status ≠ some BillStatus.sent ∧
    (findBill (sendBill 10 1 1 sC).2 1).map Bill.sentAt = some none ∧
    (findBill (sendBill 10 1 1 sC).2 1).map Bill.isInMarketplace = some false := by
  decide

/-- Claim C7 counterexample: bill 1 in sH is stored as sent with dueDate 5
already past at read time 10; the getBillsByStatus read path still reports
it under status sent and not under overdue -- no read-time overdue
derivation happens -- while the marketplace read path does exclude it. -/
theorem staleSentBill_reported_sent_not_overdue :
    billH.status = BillStatus.sent ∧ billH.dueDate < 10 ∧
    getBillsByStatus 1 BillStatus.sent sH = [billH] ∧
    getBillsByStatus 1 BillStatus.overdue sH = [] ∧
    (getMarketplaceBills 10 2 sH).2 = [] := by
  decide

/-- Claim C8 counterexample: bid 1 in sD is stored pending but expired at
time 5; at time 10 Update and Accept fail with "Bid has expired", yet
Cancel -- which checks only ownership and pending status -- succeeds and
hard-deletes the bid, contradicting the claim that every actionable
operation including Cancel fails on an expired bid. -/
theorem cancelBid_succeeds_on_expired_bid :
    bidD.status = BidStatus.pending ∧ bidD.expiresAt ≤ 10 ∧
    (updateBid 10 2 1 { financingPercentage := none, terms := none, interest := none } sD).1 =
      some ⟨"Bid has expired", 400⟩ ∧
    (acceptBid 10 1 1 sD).1 = some ⟨"Bid has expired", 400⟩ ∧
    (cancelBid 2 1 sD).1 = none ∧
    (cancelBid 2 1 sD).2.bids = [] := by
  decide

/-- Claim C9 counterexample: starting from sE0 (financer 3 with zero
funds), organization 1 creates and sends two bills of amount 10000,
financer 3 adds 5000 of funds and places a 40 percent bid (amount 4000) on
each -- placement only checks funds per bid -- and both bids are accepted;
every step succeeds, and the financer availableFunds ends at -3000,
violating the claimed nonnegativity invariant. -/
theorem availableFunds_goes_negative :
    (createBill 0 1 "B1" { title := "t", description := "d", amount := 10000, dueDate := 1000000, customer := 2 } sE0).1 = none ∧
    (createBill 0 1 "B2" { title := "t", description := "d", amount := 10000, dueDate := 1000000, customer := 2 } sE1).1 = none ∧
    (sendBill 1 1 1 sE2).1 = none ∧
    (sendBill 1 1 2 sE3).1 = none ∧
    (addFunds 3 5000 sE4).1 = none ∧
    (placeBid 2 3 { billId := 1, financingPercentage := 40, terms := "", interest := none } sE5).1 = none ∧
    (placeBid 2 3 { billId := 2, financingPercentage := 40, terms := "", interest := none } sE6).1 = none ∧
    (acceptBid 3 1 1 sE7).1 = none ∧
    (acceptBid 3 1 2 sE8).1 = none ∧
    (sE9.users 3).financerDetails.availableFunds = -3000 ∧
    (sE9.users 3).financerDetails.availableFunds < 0 := by
  decide

/-- Claim C10 counterexample: in sF financer 2 holds an accepted bid on
bill 1 (now financed); a new Place by financer 2 on that bill fails, but
with the earlier marketplace-availability error "Bill is not available for
financing", never reaching the duplicate guard, so the claimed
DuplicateBid failure is not what happens for an accepted bid. -/
theorem placeBid_with_accepted_bid_fails_before_duplicate_guard :
    (findBid sF 1).map Bid.status = some BidStatus.accepted ∧
    (findBid sF 1).map Bid.financer = some 2 ∧
    (placeBid 20 2 { billId := 1, financingPercentage := 30, terms := "", interest := none } sF).1 =
      some ⟨"Bill is not available for financing", 400⟩ ∧
    (⟨"Bill is not available for financing", 400⟩ : AppError) ≠
      ⟨"You have already placed a bid on this bill", 400⟩ := by
  decide

/-- Claim C2: for every store whose bids respect the schema range on
financingPercentage, every core operation that returns an error leaves the
store exactly as it was: each controller validates all its preconditions
before its first write, so a failed precondition has zero side effects and
acceptance is all-or-nothing. -/
theorem failed_ops_have_no_side_effects (s : State)
    (hpct : ∀ b ∈ s.bids, 1 ≤ b.financingPercentage ∧ b.financingPercentage ≤ 95) :
    (∀ now a req, ((placeBid now a req s).1).isSome → (placeBid now a req s).2 = s) ∧
    (∀ now a bidId req, ((updateBid now a bidId req s).1).isSome → (updateBid now a bidId req s).2 = s) ∧
    (∀ now a bidId, ((acceptBid now a bidId s).1).isSome → (acceptBid now a bidId s).2 = s) ∧
    (∀ a bidId, ((cancelBid a bidId s).1).isSome → (cancelBid a bidId s).2 = s) ∧
    (∀ now a billId, ((sendBill now a billId s).1).isSome → (sendBill now a billId s).2 = s) ∧
    (∀ now a billId, ((payBill now a billId s).1).isSome → (payBill now a billId s).2 = s) :=
  ⟨fun now a req => placeBid_error_no_change now a req s,
   fun now a bidId req => updateBid_error_no_change now a bidId req s,
   fun now a bidId => acceptBid_error_no_change now a bidId s hpct,
   fun a bidId => cancelBid_error_no_change a bidId s,
   fun now a billId => sendBill_error_no_change now a billId s,
   fun now a billId => payBill_error_no_change now a billId s⟩

/-- Claim C2 witness: in the concrete store sA, a Place by customer 4 fails
(Forbidden) and an Accept by non-owner 2 fails (Forbidden), and both leave
the store unchanged. -/
theorem failed_ops_have_no_side_effects_witness :
    (∀ b ∈ sA.bids, 1 ≤ b.financingPercentage ∧ b.financingPercentage ≤ 95) ∧
    ((placeBid 10 4 { billId := 1, financingPercentage := 40, terms := "", interest := none } sA).1).isSome ∧
    (placeBid 10 4 { billId := 1, financingPercentage := 40, terms := "", interest := none } sA).2 = sA ∧
    ((acceptBid 10 2 1 sA).1).isSome ∧
    (acceptBid 10 2 1 sA).2 = sA :=
  ⟨by decide, by decide,
   (failed_ops_have_no_side_effects sA (by decide)).1 10 4
     { billId := 1, financingPercentage := 40, terms := "", interest := none } (by decide),
   by decide,
   (failed_ops_have_no_side_effects sA (by decide)).2.2.1 10 2 1 (by decide)⟩

theorem acceptBid_ok_spec (now : Time) (actor : UserId) (bidId : BidId) (s : State)
    (B : Bid) (X : Bill)
    (hB : findBid s bidId = some B) (hX : findBill s B.bill = some X)
    (hacc : (acceptBid now actor bidId s).1 = none) :
    X.organization = actor ∧ B.status = BidStatus.pending ∧ now < B.expiresAt ∧
    X.financer = none ∧
    (acceptBid now actor bidId s).2.bids = s.bids.map (acceptTransform now B X) ∧
    (acceptBid now actor bidId s).2.bills =
      s.bills.map (fun x => if x.id = (financeBill now B X).id then financeBill now B X else x) ∧
    ((∀ i, (s.users i).id = i) →
      ((acceptBid now actor bidId s).2.users B.financer).financerDetails.availableFunds =
        (s.users B.financer).financerDetails.availableFunds - B.bidAmount) := by
  unfold acceptBid at hacc ⊢
  rw [hB] at hacc ⊢
  dsimp only at hacc ⊢
  rw [hX] at hacc ⊢
  dsimp only at hacc ⊢
  by_cases h1 : X.organization ≠ actor
  · rw [if_pos h1] at hacc; simp at hacc
  rw [if_neg h1] at hacc ⊢
  by_cases h2 : B.status ≠ BidStatus.pending
  · rw [if_pos h2] at hacc; simp at hacc
  rw [if_neg h2] at hacc ⊢
  by_cases h3 : B.expiresAt ≤ now
  · rw [if_pos h3] at hacc; simp at hacc
  rw [if_neg h3] at hacc ⊢
  by_cases h4 : X.financer ≠ none
  · rw [if_pos h4] at hacc; simp at hacc
  rw [if_neg h4] at hacc ⊢
  by_cases h5 : ¬(0 ≤ B.financingPercentage ∧ B.financingPercentage ≤ 100)
  · rw [if_pos h5] at hacc; simp at hacc
  rw [if_neg h5] at hacc ⊢
  dsimp only
  refine ⟨not_ne_iff.mp h1, not_ne_iff.mp h2, Nat.lt_of_not_le h3, not_ne_iff.mp h4, ?_, ?_, ?_⟩
  · simp only [saveUser, updateStats, saveBidDoc, saveBillDoc]
    rw [List.map_map]
    rfl
  · simp only [saveUser, updateStats, saveBidDoc, saveBillDoc]
    rfl
  · intro hcoh
    simp [saveUser, updateStats, Stats.update, saveBidDoc, saveBillDoc, hcoh]



theorem acceptTransform_id (now : Time) (B : Bid) (X : Bill) (x : Bid) :
    (acceptTransform now B X x).id = x.id := by
  unfold acceptTransform
  dsimp only
  by_cases h : x.id = (bidStatusHook now true { B with status := BidStatus.accepted }).id
  · rw [if_pos h]
    split <;> exact h.symm
  · rw [if_neg h]
    split <;> rfl

theorem acceptTransform_rejects (now : Time) (B : Bid) (X : Bill) (x : Bid)
    (hne : x.id ≠ B.id) (hb : x.bill = X.id) (hp : x.status = BidStatus.pending) :
    acceptTransform now B X x = { x with status := BidStatus.rejected } := by
  have hb1 : ¬(x.id = (bidStatusHook now true { B with status := BidStatus.accepted }).id) := by
    rw [bidStatusHook_id]; exact hne
  unfold acceptTransform
  dsimp only
  rw [if_neg hb1]
  rw [if_pos ⟨hb, hp, hne⟩]

theorem acceptTransform_keeps (now : Time) (B : Bid) (X : Bill) (x : Bid)
    (hne : x.id ≠ B.id) (h : ¬(x.bill = X.id ∧ x.status = BidStatus.pending)) :
    acceptTransform now B X x = x := by
  have hb1 : ¬(x.id = (bidStatusHook now true { B with status := BidStatus.accepted }).id) := by
    rw [bidStatusHook_id]; exact hne
  unfold acceptTransform
  dsimp only
  rw [if_neg hb1]
  rw [if_neg (fun hc => h ⟨hc.1, hc.2.1⟩)]

theorem acceptTransform_accepted_status (now : Time) (B : Bid) (X : Bill) (x : Bid)
    (hx : x.id = B.id) :
    (acceptTransform now B X x).status = BidStatus.accepted := by
  have hb1 : x.id = (bidStatusHook now true { B with status := BidStatus.accepted }).id := by
    rw [bidStatusHook_id]; exact hx
  have hb2 : ¬((bidStatusHook now true { B with status := BidStatus.accepted }).bill = X.id ∧
      (bidStatusHook now true { B with status := BidStatus.accepted }).status = BidStatus.pending ∧
      (bidStatusHook now true { B with status := BidStatus.accepted }).id ≠ B.id) := by
    rw [bidStatusHook_id]
    rintro ⟨-, -, hne⟩
    exact hne rfl
  unfold acceptTransform
  dsimp only
  rw [if_pos hb1]
  rw [if_neg hb2]
  rw [bidStatusHook_status]



theorem saveMap_id (fb : Bill) (x : Bill) : (if x.id = fb.id then fb else x).id = x.id := by
  by_cases h : x.id = fb.id
  · rw [if_pos h]; exact h.symm
  · rw [if_neg h]

theorem financeBill_id (now : Time) (B : Bid) (X : Bill) :
    (financeBill now B X).id = X.id := by
  unfold financeBill; rw [billStatusHooks_id]

theorem financeBill_organization (now : Time) (B : Bid) (X : Bill) :
    (financeBill now B X).organization = X.organization := by
  unfold financeBill; rw [billStatusHooks_organization]

/-- Claim C5: whenever an Accept of bid B on bill X succeeds, the bid
collection is transformed pointwise: every other bid on X that was pending
is set to rejected, every bid that is not on X or was not pending is left
untouched, and the accepted bid B itself ends with status accepted, never
rejected. -/
theorem accept_rejects_exactly_other_pending_bids
    (now : Time) (actor : UserId) (bidId : BidId) (s : State) (B : Bid) (X : Bill)
    (hB : findBid s bidId = some B) (hX : findBill s B.bill = some X)
    (hacc : (acceptBid now actor bidId s).1 = none) :
    (acceptBid now actor bidId s).2.bids.length = s.bids.length ∧
    ∀ i : Nat, ∀ h : i < s.bids.length, ∀ h2 : i < (acceptBid now actor bidId s).2.bids.length,
      (((s.bids.get ⟨i, h⟩).id ≠ B.id ∧ (s.bids.get ⟨i, h⟩).bill = X.id ∧
          (s.bids.get ⟨i, h⟩).status = BidStatus.pending) →
        (acceptBid now actor bidId s).2.bids.get ⟨i, h2⟩ =
          { s.bids.get ⟨i, h⟩ with status := BidStatus.rejected }) ∧
      (((s.bids.get ⟨i, h⟩).id ≠ B.id ∧ ¬((s.bids.get ⟨i, h⟩).bill = X.id ∧
          (s.bids.get ⟨i, h⟩).status = BidStatus.pending)) →
        (acceptBid now actor bidId s).2.bids.get ⟨i, h2⟩ = s.bids.get ⟨i, h⟩) ∧
      ((s.bids.get ⟨i, h⟩).id = B.id →
        ((acceptBid now actor bidId s).2.bids.get ⟨i, h2⟩).status = BidStatus.accepted) := by
  obtain ⟨-, -, -, -, hbids, -, -⟩ := acceptBid_ok_spec now actor bidId s B X hB hX hacc
  constructor
  · rw [hbids, List.length_map]
  · intro i h h2
    have hx : (acceptBid now actor bidId s).2.bids.get ⟨i, h2⟩ =
        acceptTransform now B X (s.bids.get ⟨i, h⟩) := by
      simp only [hbids, List.get_eq_getElem, List.getElem_map]
    refine ⟨?_, ?_, ?_⟩
    · rintro ⟨ha, hb, hc⟩
      rw [hx]
      exact acceptTransform_rejects now B X _ ha hb hc
    · rintro ⟨ha, hnm⟩
      rw [hx]
      exact acceptTransform_keeps now B X _ ha hnm
    · intro hid
      rw [hx]
      exact acceptTransform_accepted_status now B X _ hid

/-- Claim C5 witness: accepting bid 1 on bill 1 in sA rejects the other
pending bid 2 and leaves the accepted bid accepted. -/
theorem accept_rejects_exactly_other_pending_bids_witness :
    (findBid sA 1 = some bid1A) ∧ (findBill sA 1 = some billA) ∧
    ((acceptBid 10 1 1 sA).1 = none) ∧
    ((acceptBid 10 1 1 sA).2.bids.length = sA.bids.length ∧
      ∀ i : Nat, ∀ h : i < sA.bids.length, ∀ h2 : i < (acceptBid 10 1 1 sA).2.bids.length,
        (((sA.bids.get ⟨i, h⟩).id ≠ bid1A.id ∧ (sA.bids.get ⟨i, h⟩).bill = billA.id ∧
            (sA.bids.get ⟨i, h⟩).status = BidStatus.pending) →
          (acceptBid 10 1 1 sA).2.bids.get ⟨i, h2⟩ =
            { sA.bids.get ⟨i, h⟩ with status := BidStatus.rejected }) ∧
        (((sA.bids.get ⟨i, h⟩).id ≠ bid1A.id ∧ ¬((sA.bids.get ⟨i, h⟩).bill = billA.id ∧
            (sA.bids.get ⟨i, h⟩).status = BidStatus.pending)) →
          (acceptBid 10 1 1 sA).2.bids.get ⟨i, h2⟩ = sA.bids.get ⟨i, h⟩) ∧
        ((sA.bids.get ⟨i, h⟩).id = bid1A.id →
          ((acceptBid 10 1 1 sA).2.bids.get ⟨i, h2⟩).status = BidStatus.accepted)) :=
  ⟨by decide, by decide, by decide,
   accept_rejects_exactly_other_pending_bids 10 1 1 sA bid1A billA
     (by decide) (by decide) (by decide)⟩



theorem preservesFinancers_of_bills_eq {s t : State} (h : t.bills = s.bills) :
    preservesFinancers s t :=
  fun b hb f hf => ⟨b, h ▸ hb, rfl, hf⟩

theorem preservesFinancers_mapSave (s t : State) (orig new : Bill)
    (hnd : (s.bills.map Bill.id).Nodup)
    (horig : orig ∈ s.bills)
    (hid : new.id = orig.id)
    (hfin : ∀ f : UserId, orig.financer = some f → new.financer = some f)
    (ht : t.bills = s.bills.map (fun x => if x.id = new.id then new else x)) :
    preservesFinancers s t := by
  intro b hb f hf
  have hm := List.mem_map_of_mem (fun x => if x.id = new.id then new else x) hb
  by_cases h : b.id = new.id
  · have hbo : b = orig := eq_of_key_nodup Bill.id s.bills hnd b hb orig horig (by rw [h, hid])
    refine ⟨new, ?_, by rw [hid, ← hbo], hfin f (hbo ▸ hf)⟩
    rw [ht]
    simpa [h] using hm
  · refine ⟨b, ?_, rfl, hf⟩
    rw [ht]
    simpa [h] using hm

theorem placeBid_bills (now : Time) (a : UserId) (req : PlaceBidReq) (s : State) :
    ((placeBid now a req s).2).bills = s.bills := by
  unfold placeBid
  dsimp only
  repeat' split
  all_goals first | rfl | simp [updateStats, saveUser]

theorem updateBid_bills (now : Time) (a : UserId) (bidId : BidId) (req : UpdateBidReq) (s : State) :
    ((updateBid now a bidId req s).2).bills = s.bills := by
  unfold updateBid
  dsimp only
  repeat' split
  all_goals first | rfl | simp [saveBidDoc]

theorem cancelBid_bills (a : UserId) (bidId : BidId) (s : State) :
    ((cancelBid a bidId s).2).bills = s.bills := by
  unfold cancelBid
  repeat' split
  all_goals rfl

theorem addFunds_bills (a : UserId) (amount : Money) (s : State) :
    ((addFunds a amount s).2).bills = s.bills := by
  unfold addFunds
  repeat' split
  all_goals first | rfl | simp [saveUser]

theorem sendBill_preserves_financers (now : Time) (a : UserId) (billId : BillId) (s : State)
    (hnd : (s.bills.map Bill.id).Nodup) :
    preservesFinancers s (sendBill now a billId s).2 := by
  unfold sendBill
  cases hfb : findBill s billId with
  | none => exact preservesFinancers_of_bills_eq rfl
  | some bill =>
    dsimp only
    split
    · exact preservesFinancers_of_bills_eq rfl
    split
    · exact preservesFinancers_of_bills_eq rfl
    refine preservesFinancers_mapSave s _ bill
      (billStatusHooks now true { bill with status := BillStatus.sent }) hnd
      (List.mem_of_find?_eq_some hfb) (by rw [billStatusHooks_id]) ?_ ?_
    · intro f hf
      rw [billStatusHooks_financer]
      exact hf
    · simp [updateStats, saveUser, saveBillDoc]

theorem payBill_preserves_financers (now : Time) (a : UserId) (billId : BillId) (s : State)
    (hnd : (s.bills.map Bill.id).Nodup) :
    preservesFinancers s (payBill now a billId s).2 := by
  unfold payBill
  cases hfb : findBill s billId with
  | none => exact preservesFinancers_of_bills_eq rfl
  | some bill =>
    dsimp only
    split
    · exact preservesFinancers_of_bills_eq rfl
    split
    · exact preservesFinancers_of_bills_eq rfl
    split
    · exact preservesFinancers_of_bills_eq rfl
    refine preservesFinancers_mapSave s _ bill
      (billStatusHooks now true { bill with status := BillStatus.paid }) hnd
      (List.mem_of_find?_eq_some hfb) (by rw [billStatusHooks_id]) ?_ ?_
    · intro f hf
      rw [billStatusHooks_financer]
      exact hf
    · split
      · simp [updateStats, saveUser, saveBillDoc]
      · split
        · simp [updateStats, saveUser, saveBillDoc]
        · simp [updateStats, saveUser, saveBillDoc]

theorem acceptBid_preserves_financers (now : Time) (a : UserId) (bidId : BidId) (s : State)
    (hnd : (s.bills.map Bill.id).Nodup) :
    preservesFinancers s (acceptBid now a bidId s).2 := by
  unfold acceptBid
  cases hfb : findBid s bidId with
  | none => exact preservesFinancers_of_bills_eq rfl
  | some bid =>
    dsimp only
    cases hfl : findBill s bid.bill with
    | none => exact preservesFinancers_of_bills_eq rfl
    | some bill =>
      dsimp only
      split
      · exact preservesFinancers_of_bills_eq rfl
      split
      · exact preservesFinancers_of_bills_eq rfl
      split
      · exact preservesFinancers_of_bills_eq rfl
      split
      · exact preservesFinancers_of_bills_eq rfl
      next h4 =>
      split
      · exact preservesFinancers_of_bills_eq (by simp [saveBidDoc])
      · refine preservesFinancers_mapSave s _ bill (financeBill now bid bill) hnd
          (List.mem_of_find?_eq_some hfl) (financeBill_id now bid bill) ?_ ?_
        · intro f hf
          rw [not_ne_iff.mp h4] at hf
          cases hf
        · simp [updateStats, saveUser, saveBidDoc, saveBillDoc, financeBill]



/-- Claim C1 (amended): once an Accept of bid B on bill X has succeeded, a
second Accept by the bill owner on any other bid that was pending at the
first acceptance always fails -- with the InvalidState error "Bid is no
longer available", because the first acceptance bulk-rejected that bid --
and it leaves the store unchanged; moreover no core operation ever changes
the financer of a bill once it is set. -/
theorem secondAccept_fails_and_financer_never_changes
    (now now2 : Time) (actor : UserId) (bidId bidId2 : BidId) (s : State)
    (B B2 : Bid) (X : Bill)
    (hB : findBid s bidId = some B) (hX : findBill s B.bill = some X)
    (hacc : (acceptBid now actor bidId s).1 = none)
    (hB2 : findBid s bidId2 = some B2) (hsame : B2.bill = B.bill)
    (hne : B2.id ≠ B.id) (hpend : B2.status = BidStatus.pending) :
    acceptBid now2 X.organization bidId2 (acceptBid now actor bidId s).2 =
      (some ⟨"Bid is no longer available", 400⟩, (acceptBid now actor bidId s).2) ∧
    (∀ t : State, (t.bills.map Bill.id).Nodup →
      (∀ n a req, preservesFinancers t (placeBid n a req t).2) ∧
      (∀ n a i req, preservesFinancers t (updateBid n a i req t).2) ∧
      (∀ n a i, preservesFinancers t (acceptBid n a i t).2) ∧
      (∀ a i, preservesFinancers t (cancelBid a i t).2) ∧
      (∀ n a i, preservesFinancers t (sendBill n a i t).2) ∧
      (∀ n a i, preservesFinancers t (payBill n a i t).2)) := by
  constructor
  · obtain ⟨horg, hpendB, hexp, hfin, hbids, hbills, -⟩ :=
      acceptBid_ok_spec now actor bidId s B X hB hX hacc
    have hXid : X.id = B.bill := by
      have h2 := List.find?_some
        (show s.bills.find? (fun b => decide (b.id = B.bill)) = some X from hX)
      simpa using h2
    have hfb2 : findBid (acceptBid now actor bidId s).2 bidId2 =
        some { B2 with status := BidStatus.rejected } := by
      unfold findBid
      rw [hbids, find?_map_key Bid.id (acceptTransform now B X) (acceptTransform_id now B X)
        bidId2 s.bids]
      unfold findBid at hB2
      rw [hB2]
      rw [Option.map_some']
      rw [acceptTransform_rejects now B X B2 hne (by rw [hsame]; exact hXid.symm) hpend]
    have hfl2 : findBill (acceptBid now actor bidId s).2 B2.bill = some (financeBill now B X) := by
      unfold findBill
      rw [hbills, find?_map_key Bill.id
        (fun x => if x.id = (financeBill now B X).id then financeBill now B X else x)
        (saveMap_id (financeBill now B X)) B2.bill s.bills]
      have hX2 : s.bills.find? (fun b => decide (b.id = B2.bill)) = some X := by
        rw [hsame]
        unfold findBill at hX
        exact hX
      rw [hX2, Option.map_some']
      rw [if_pos (financeBill_id now B X).symm]
    generalize hgen : (acceptBid now actor bidId s).2 = s1
    rw [hgen] at hfb2 hfl2
    unfold acceptBid
    rw [hfb2]
    dsimp only
    rw [hfl2]
    dsimp only
    have ho : ¬((financeBill now B X).organization ≠ X.organization) := by
      rw [financeBill_organization]
      exact not_ne_iff.mpr rfl
    rw [if_neg ho]
    have hs : ({ B2 with status := BidStatus.rejected } : Bid).status ≠ BidStatus.pending := by
      intro hcon
      exact BidStatus.noConfusion hcon
    rw [if_pos hs]
  · intro t hnd
    exact ⟨fun n a req => preservesFinancers_of_bills_eq (placeBid_bills n a req t),
      fun n a i req => preservesFinancers_of_bills_eq (updateBid_bills n a i req t),
      fun n a i => acceptBid_preserves_financers n a i t hnd,
      fun a i => preservesFinancers_of_bills_eq (cancelBid_bills a i t),
      fun n a i => sendBill_preserves_financers n a i t hnd,
      fun n a i => payBill_preserves_financers n a i t hnd⟩



/-- Claim C6 (amended): for a draft bill whose dueDate is not already past,
Send by the owning organization succeeds and stamps status sent, sentAt now
and isInMarketplace true; Send fails Forbidden when the actor does not own
the bill, and InvalidState when the bill is not a draft.  (When the draft
is already past due, the save hook turns it overdue instead -- see the
counterexample.) -/
theorem sendBill_spec_amended
    (now : Time) (actor : UserId) (billId : BillId) (s : State) (bill : Bill)
    (hfind : findBill s billId = some bill) :
    (bill.organization = actor → bill.status = BillStatus.draft → ¬ bill.dueDate < now →
      bill.sentAt = none →
      (sendBill now actor billId s).1 = none ∧
      findBill (sendBill now actor billId s).2 billId =
        some { bill with status := BillStatus.sent, sentAt := some now, isInMarketplace := true }) ∧
    (bill.organization ≠ actor →
      sendBill now actor billId s = (some ⟨"You can only send your own bills", 403⟩, s)) ∧
    (bill.organization = actor → bill.status ≠ BillStatus.draft →
      sendBill now actor billId s = (some ⟨"Bill has already been sent", 400⟩, s)) := by
  have hIdEq : bill.id = billId := by
    have h2 := List.find?_some
      (show s.bills.find? (fun b => decide (b.id = billId)) = some bill from hfind)
    simpa using h2
  refine ⟨?_, ?_, ?_⟩
  · intro hown hdraft hnotdue hsent
    have hb1 : billStatusHooks now true { bill with status := BillStatus.sent } =
        { bill with status := BillStatus.sent, sentAt := some now, isInMarketplace := true } := by
      simp [billStatusHooks, hnotdue, hsent]
    unfold sendBill
    rw [hfind]
    dsimp only
    rw [if_neg (not_ne_iff.mpr hown), if_neg (not_ne_iff.mpr hdraft)]
    refine ⟨rfl, ?_⟩
    unfold findBill
    have hbl : (updateStats (updateStats (saveBillDoc s
        (billStatusHooks now true { bill with status := BillStatus.sent }))
          actor StatType.billSent 1) bill.customer StatType.billReceived 1).bills =
        s.bills.map (fun x =>
          if x.id = ({ bill with status := BillStatus.sent, sentAt := some now, isInMarketplace := true } : Bill).id then { bill with status := BillStatus.sent, sentAt := some now, isInMarketplace := true }
          else x) := by
      rw [hb1]
      simp [updateStats, saveUser, saveBillDoc]
    rw [hbl]
    rw [find?_map_key Bill.id _
      (saveMap_id { bill with status := BillStatus.sent, sentAt := some now, isInMarketplace := true })
      billId s.bills]
    rw [show s.bills.find? (fun b => decide (b.id = billId)) = some bill from hfind,
      Option.map_some']
    dsimp only
    rw [if_pos (rfl : bill.id = bill.id)]
  · intro hno
    unfold sendBill
    rw [hfind]
    dsimp only
    rw [if_pos hno]
  · intro hown hnd
    unfold sendBill
    rw [hfind]
    dsimp only
    rw [if_neg (not_ne_iff.mpr hown), if_pos hnd]

/-- Claim C6 witness: organization 1 sends draft bill 1 of sC at time 3
(before its dueDate 5); Send succeeds and the bill ends sent with sentAt 3
and isInMarketplace true. -/
theorem sendBill_spec_amended_witness :
    (findBill sC 1 = some billC ∧ billC.organization = 1 ∧
      billC.status = BillStatus.draft ∧ ¬ billC.dueDate < 3 ∧ billC.sentAt = none) ∧
    ((sendBill 3 1 1 sC).1 = none ∧
      findBill (sendBill 3 1 1 sC).2 1 =
        some { billC with status := BillStatus.sent, sentAt := some 3, isInMarketplace := true }) :=
  ⟨by decide,
   (sendBill_spec_amended 3 1 1 sC billC (by decide)).1 (by decide) (by decide)
     (by decide) (by decide)⟩



/-- Claim C7 (amended): the marketplace read path excludes every bill whose
dueDate is not in the future (and any financed, non-sent or delisted bill),
while getBillsByStatus reports bills under their stored status only: a
past-due bill stored as sent is still reported under sent, and the overdue
transition happens only at the next save of the bill. -/
theorem marketplace_excludes_pastDue_and_reads_report_stored_status :
    (∀ (now : Time) (actor : UserId) (s : State) (b : Bill),
      b ∈ (getMarketplaceBills now actor s).2 →
      now < b.dueDate ∧ b.status = BillStatus.sent ∧ b.isInMarketplace = true ∧
        b.financer = none) ∧
    (∀ (actor : UserId) (q : BillStatus) (s : State) (b : Bill),
      b ∈ getBillsByStatus actor q s → b.status = q) := by
  constructor
  · intro now actor s b hb
    unfold getMarketplaceBills at hb
    split at hb
    · simp at hb
    · have hm := (List.mem_filter.mp hb).2
      unfold marketplaceEligible at hm
      have hm' := of_decide_eq_true hm
      exact ⟨hm'.2.2.1, hm'.2.1, hm'.1, hm'.2.2.2⟩
  · intro actor q s b hb
    unfold getBillsByStatus at hb
    have hm := (List.mem_filter.mp hb).2
    rw [Bool.and_eq_true] at hm
    exact of_decide_eq_true hm.1

/-- Claim C7 witness: in sH, financer 2 sees an empty marketplace (bill 1
is past due), and organization 1 querying status sent gets bill 1 reported
with its stored status sent. -/
theorem marketplace_excludes_pastDue_witness :
    (billH ∈ getBillsByStatus 1 BillStatus.sent sH) ∧
    (10 < billH.dueDate ∨ billH ∉ (getMarketplaceBills 10 2 sH).2) ∧
    billH.status = BillStatus.sent :=
  ⟨by decide,
   Or.inr (fun hmem =>
    absurd (marketplace_excludes_pastDue_and_reads_report_stored_status.1 10 2 sH billH hmem).1
      (by decide)),
   marketplace_excludes_pastDue_and_reads_report_stored_status.2 1 BillStatus.sent sH billH
     (by decide)⟩

/-- Claim C8 (amended): on a bid whose expiresAt is past even though its
stored status is still pending, Update and Accept fail with the Expired
error, but Cancel checks only ownership and pending status, so it succeeds
and hard-deletes the bid. -/
theorem expired_bid_update_accept_fail_cancel_succeeds
    (now : Time) (s : State) (bidId : BidId) (bid : Bid)
    (hfind : findBid s bidId = some bid)
    (hpend : bid.status = BidStatus.pending)
    (hexp : bid.expiresAt ≤ now) :
    (∀ req, updateBid now bid.financer bidId req s = (some ⟨"Bid has expired", 400⟩, s)) ∧
    (∀ (bill : Bill), findBill s bid.bill = some bill →
      acceptBid now bill.organization bidId s = (some ⟨"Bid has expired", 400⟩, s)) ∧
    ((cancelBid bid.financer bidId s).1 = none ∧
      ∀ x ∈ (cancelBid bid.financer bidId s).2.bids, x.id ≠ bidId) := by
  refine ⟨?_, ?_, ?_, ?_⟩
  · intro req
    unfold updateBid
    rw [hfind]
    dsimp only
    rw [if_neg (not_ne_iff.mpr rfl), if_neg (not_ne_iff.mpr hpend), if_pos hexp]
  · intro bill hbill
    unfold acceptBid
    rw [hfind]
    dsimp only
    rw [hbill]
    dsimp only
    rw [if_neg (not_ne_iff.mpr rfl), if_neg (not_ne_iff.mpr hpend), if_pos hexp]
  · unfold cancelBid
    rw [hfind]
    dsimp only
    rw [if_neg (not_ne_iff.mpr rfl), if_neg (not_ne_iff.mpr hpend)]
  · intro x hx
    unfold cancelBid at hx
    rw [hfind] at hx
    dsimp only at hx
    rw [if_neg (not_ne_iff.mpr rfl), if_neg (not_ne_iff.mpr hpend)] at hx
    dsimp only at hx
    have := (List.mem_filter.mp hx).2
    exact of_decide_eq_true this

/-- Claim C8 witness: for the expired pending bid 1 of sD at time 10,
Update and Accept fail Expired while Cancel succeeds and removes it. -/
theorem expired_bid_update_accept_fail_cancel_succeeds_witness :
    (findBid sD 1 = some bidD ∧ bidD.status = BidStatus.pending ∧ bidD.expiresAt ≤ 10) ∧
    (updateBid 10 bidD.financer 1 { financingPercentage := none, terms := none, interest := none } sD =
      (some ⟨"Bid has expired", 400⟩, sD)) ∧
    (acceptBid 10 billA.organization 1 sD = (some ⟨"Bid has expired", 400⟩, sD)) ∧
    ((cancelBid bidD.financer 1 sD).1 = none) :=
  ⟨by decide,
   (expired_bid_update_accept_fail_cancel_succeeds 10 sD 1 bidD (by decide) (by decide)
     (by decide)).1 { financingPercentage := none, terms := none, interest := none },
   (expired_bid_update_accept_fail_cancel_succeeds 10 sD 1 bidD (by decide) (by decide)
     (by decide)).2.1 billA (by decide),
   ((expired_bid_update_accept_fail_cancel_succeeds 10 sD 1 bidD (by decide) (by decide)
     (by decide)).2.2).1⟩



theorem usersA_coherent : ∀ i, (sA.users i).id = i := by
  intro i
  show (usersA i).id = i
  unfold usersA mkUser
  repeat' split
  all_goals simp_all

/-- Claim C9 (amended): availableFunds only grows under a successful funds
addition and is untouched by bid placement; a successful acceptance debits
exactly bidAmount with no nonnegativity re-check, so the balance stays
nonnegative exactly when the financer funds at acceptance still cover the
bid amount.  (With several outstanding bids the placement-time check does
not prevent a negative balance -- see the counterexample.) -/
theorem funds_nonneg_amended :
    (∀ (a : UserId) (amount : Money) (s : State), (∀ i, (s.users i).id = i) →
      (addFunds a amount s).1 = none →
      ((addFunds a amount s).2.users a).financerDetails.availableFunds =
        (s.users a).financerDetails.availableFunds + amount ∧
      (0 ≤ (s.users a).financerDetails.availableFunds →
        0 ≤ ((addFunds a amount s).2.users a).financerDetails.availableFunds)) ∧
    (∀ (now : Time) (a : UserId) (req : PlaceBidReq) (s : State) (u : UserId),
      (∀ i, (s.users i).id = i) →
      ((placeBid now a req s).2.users u).financerDetails.availableFunds =
        (s.users u).financerDetails.availableFunds) ∧
    (∀ (now : Time) (actor : UserId) (bidId : BidId) (s : State) (B : Bid) (X : Bill),
      (∀ i, (s.users i).id = i) →
      findBid s bidId = some B → findBill s B.bill = some X →
      (acceptBid now actor bidId s).1 = none →
      ((acceptBid now actor bidId s).2.users B.financer).financerDetails.availableFunds =
        (s.users B.financer).financerDetails.availableFunds - B.bidAmount ∧
      (B.bidAmount ≤ (s.users B.financer).financerDetails.availableFunds →
        0 ≤ ((acceptBid now actor bidId s).2.users B.financer).financerDetails.availableFunds)) := by
  refine ⟨?_, ?_, ?_⟩
  · intro a amount s hcoh hsucc
    by_cases h1 : (s.users a).role ≠ Role.financer
    · exfalso; unfold addFunds at hsucc; rw [if_pos h1] at hsucc; simp at hsucc
    by_cases h2 : amount ≤ 0
    · exfalso; unfold addFunds at hsucc; rw [if_neg h1, if_pos h2] at hsucc; simp at hsucc
    have hEq : ((addFunds a amount s).2.users a).financerDetails.availableFunds =
        (s.users a).financerDetails.availableFunds + amount := by
      unfold addFunds
      rw [if_neg h1, if_neg h2]
      dsimp only
      simp [saveUser, hcoh]
    refine ⟨hEq, fun h0 => ?_⟩
    rw [hEq]
    have hlt : 0 < amount := lt_of_not_le h2
    linarith
  · intro now a req s u hcoh
    unfold placeBid
    dsimp only
    repeat' split
    all_goals first
      | rfl
      | (simp only [updateStats, saveUser, Stats.update, hcoh]
         split <;> simp_all)
  · intro now actor bidId s B X hcoh hB hX hacc
    obtain ⟨-, -, -, -, -, -, hfunds⟩ := acceptBid_ok_spec now actor bidId s B X hB hX hacc
    have h1 := hfunds hcoh
    refine ⟨h1, ?_⟩
    intro hle
    rw [h1]
    exact sub_nonneg.mpr hle

/-- Claim C9 witness: in sA, adding 500 of funds raises financer 2 funds to
1500; placing a bid never changes funds; accepting bid 1 (amount 10,
covered by the 1000 of funds) debits exactly 10 and stays nonnegative. -/
theorem funds_nonneg_amended_witness :
    (∀ i, (sA.users i).id = i) ∧
    ((addFunds 2 500 sA).1 = none) ∧
    (((addFunds 2 500 sA).2.users 2).financerDetails.availableFunds =
      (sA.users 2).financerDetails.availableFunds + 500) ∧
    (((placeBid 10 2 { billId := 1, financingPercentage := 40, terms := "", interest := none } sA).2.users 2).financerDetails.availableFunds =
      (sA.users 2).financerDetails.availableFunds) ∧
    (findBid sA 1 = some bid1A ∧ findBill sA 1 = some billA ∧
      (acceptBid 10 1 1 sA).1 = none ∧
      bid1A.bidAmount ≤ (sA.users 2).financerDetails.availableFunds) ∧
    (((acceptBid 10 1 1 sA).2.users 2).financerDetails.availableFunds =
      (sA.users 2).financerDetails.availableFunds - bid1A.bidAmount) ∧
    (0 ≤ ((acceptBid 10 1 1 sA).2.users 2).financerDetails.availableFunds) :=
  ⟨usersA_coherent, by decide,
   (funds_nonneg_amended.1 2 500 sA usersA_coherent (by decide)).1,
   funds_nonneg_amended.2.1 10 2
     { billId := 1, financingPercentage := 40, terms := "", interest := none } sA 2
     usersA_coherent,
   by decide,
   (funds_nonneg_amended.2.2 10 1 1 sA bid1A billA usersA_coherent (by decide) (by decide)
     (by decide)).1,
   (funds_nonneg_amended.2.2 10 1 1 sA bid1A billA usersA_coherent (by decide) (by decide)
     (by decide)).2 (by decide)⟩



/-- Claim C10 (amended): the duplicate guard in Place matches an existing
bid of every status -- whenever the financer role, marketplace
availability, unfinanced state, future dueDate and sufficient funds checks
all pass, an existing bid of any status by that financer on that bill makes
Place fail DuplicateBid; and cancelling a financer's only bid on a bill
removes the (bill, financer) pair, so the guard no longer blocks them. -/
theorem duplicate_guard_matches_any_status :
    (∀ (now : Time) (actor : UserId) (billId : BillId) (pct : Money) (terms : String)
        (interest : Option Money) (s : State) (bill : Bill) (bid0 : Bid),
      (s.users actor).role = Role.financer →
      findBill s billId = some bill →
      bill.isInMarketplace = true → bill.status = BillStatus.sent →
      bill.financer = none → now < bill.dueDate →
      bill.amount * pct / 100 ≤ (s.users actor).financerDetails.availableFunds →
      bid0 ∈ s.bids → bid0.bill = billId → bid0.financer = actor →
      placeBid now actor
        { billId := billId, financingPercentage := pct, terms := terms, interest := interest } s =
        (some ⟨"You have already placed a bid on this bill", 400⟩, s)) ∧
    (∀ (actor : UserId) (bidId : BidId) (s : State) (cbid : Bid),
      findBid s bidId = some cbid → cbid.financer = actor →
      cbid.status = BidStatus.pending →
      (∀ x ∈ s.bids, x.bill = cbid.bill → x.financer = actor → x.id = bidId) →
      (cancelBid actor bidId s).1 = none ∧
      ∀ x ∈ (cancelBid actor bidId s).2.bids, ¬(x.bill = cbid.bill ∧ x.financer = actor)) := by
  constructor
  · intro now actor billId pct terms interest s bill bid0 hrole hfind hmp hsent hfin hdue
      hfunds hmem hbill0 hfin0
    have hdup : (s.bids.find? (fun x => decide (x.bill = billId ∧ x.financer = actor))).isSome = true := by
      rw [List.find?_isSome]
      exact ⟨bid0, hmem, by simp [hbill0, hfin0]⟩
    unfold placeBid
    dsimp only
    rw [if_neg (not_ne_iff.mpr hrole), hfind]
    dsimp only
    rw [if_neg (not_or.mpr ⟨not_not_intro hmp, not_ne_iff.mpr hsent⟩)]
    rw [if_neg (not_ne_iff.mpr hfin)]
    rw [if_neg (not_le.mpr hdue)]
    rw [if_neg (not_lt.mpr hfunds)]
    rw [if_pos hdup]
  · intro actor bidId s cbid hfind hown hpend huniq
    refine ⟨?_, ?_⟩
    · unfold cancelBid
      rw [hfind]
      dsimp only
      rw [if_neg (not_ne_iff.mpr hown), if_neg (not_ne_iff.mpr hpend)]
    · intro x hx
      unfold cancelBid at hx
      rw [hfind] at hx
      dsimp only at hx
      rw [if_neg (not_ne_iff.mpr hown), if_neg (not_ne_iff.mpr hpend)] at hx
      dsimp only at hx
      have hxm := List.mem_filter.mp hx
      have hxne : x.id ≠ bidId := of_decide_eq_true hxm.2
      rintro ⟨hxb, hxf⟩
      exact hxne (huniq x hxm.1 hxb hxf)

/-- Claim C10 witness: in sG financer 2 holds a bid with status expired on
the still-open bill 1; a new Place by financer 2 fails DuplicateBid; and in
sD, cancelling financer 2's only bid on bill 1 removes the pair. -/
theorem duplicate_guard_matches_any_status_witness :
    (bidG.status = BidStatus.expired ∧ bidG ∈ sG.bids ∧ findBill sG 1 = some billA) ∧
    (placeBid 20 2 { billId := 1, financingPercentage := 30, terms := "", interest := none } sG =
      (some ⟨"You have already placed a bid on this bill", 400⟩, sG)) ∧
    ((cancelBid 2 1 sD).1 = none ∧
      ∀ x ∈ (cancelBid 2 1 sD).2.bids, ¬(x.bill = bidD.bill ∧ x.financer = 2)) :=
  ⟨by decide,
   duplicate_guard_matches_any_status.1 20 2 1 30 "" none sG billA bidG
     (by decide) (by decide) (by decide) (by decide) (by decide) (by decide) (by decide)
     (by decide) (by decide) (by decide),
   duplicate_guard_matches_any_status.2 2 1 sD bidD
     (by decide) (by decide) (by decide) (by decide)⟩



/-- Claim C1 witness: after accepting bid 1 on bill 1 of sA, a second
Accept by the owner on bid 2 (pending at first acceptance) fails with the
InvalidState error and leaves the store unchanged. -/
theorem secondAccept_fails_and_financer_never_changes_witness :
    (findBid sA 1 = some bid1A ∧ findBill sA 1 = some billA ∧
      (acceptBid 10 1 1 sA).1 = none ∧ findBid sA 2 = some bid2A ∧
      bid2A.bill = bid1A.bill ∧ bid2A.id ≠ bid1A.id ∧ bid2A.status = BidStatus.pending) ∧
    (acceptBid 20 billA.organization 2 (acceptBid 10 1 1 sA).2 =
      (some ⟨"Bid is no longer available", 400⟩, (acceptBid 10 1 1 sA).2)) :=
  ⟨by decide,
   (secondAccept_fails_and_financer_never_changes 10 20 1 1 2 sA bid1A bid2A billA
     (by decide) (by decide) (by decide) (by decide) (by decide) (by decide) (by decide)).1⟩

end InvoiceFinancing
